import Mathlib

/-!
Shallow embedding of the core of `x_v3_local.py` (local X API parity CLI):
session-cookie loading/filtering/merging, the scroll-harvest collection loop,
the stream process supervisor, and the per-endpoint limit clamps.

Python dict fields that may be absent or `None` are modelled as `Option String`;
the idiom `str(d.get(k) or default)` is modelled by `pyOr`, which also maps an
empty (falsy) string to the default, exactly as Python `or` does.
-/

namespace XLocal

/-- Python `needle in haystack` on strings: `listPrefixOf p l` decides whether
`p` is an initial segment of `l`. -/
def listPrefixOf : List Char → List Char → Bool
  | [], _ => true
  | _ :: _, [] => false
  | a :: as, b :: bs => a == b && listPrefixOf as bs

/-- Substring containment on character lists: some suffix of the haystack
starts with the needle. -/
def listContainsSub (needle : List Char) : List Char → Bool
  | [] => listPrefixOf needle []
  | b :: bs => listPrefixOf needle (b :: bs) || listContainsSub needle bs

/-- Python `needle in haystack` for strings. -/
def strContains (haystack needle : String) : Bool :=
  listContainsSub needle.data haystack.data

/-- Python `str(x or d)` for a string-valued field `x` that may be missing or
`None`: missing and the empty string are both falsy, so both give `d`. -/
def pyOr (s : Option String) (d : String) : String :=
  match s with
  | none => d
  | some v => if v = "" then d else v

/-- `X_HOSTS = ("x.com", "twitter.com")` from the source. -/
def X_HOSTS : List String := ["x.com", "twitter.com"]

/-- A cookie record (Python dict / browser-cookie object); each relevant field
may be absent. -/
structure CookieRec where
  domain : Option String := none
  name : Option String := none
  value : Option String := none
  path : Option String := none
deriving Repr, DecidableEq

/-- Retention test of `_load_saved_session_cookies`: the record is skipped when
`not name or not value or not any(host in domain for host in X_HOSTS)`. -/
def keepSavedCookie (c : CookieRec) : Bool :=
  let domain := pyOr c.domain ""
  let name := pyOr c.name ""
  let value := pyOr c.value ""
  !(name = "" || value = "" || !(X_HOSTS.any (fun host => strContains domain host)))

/-- Retention test of `_save_session_cookies`: first the domain is checked
against `X_HOSTS`, then `name` and `value` must be non-empty. -/
def keepSaveCookie (c : CookieRec) : Bool :=
  let domain := pyOr c.domain ""
  if !(X_HOSTS.any (fun host => strContains domain host)) then false
  else
    let name := pyOr c.name ""
    let value := pyOr c.value ""
    !(name = "" || value = "")

/-- Retention test of the browser-source path `_load_x_cookies`: domain is
checked against `X_HOSTS`, then `name` and `value` must be non-empty. -/
def keepBrowserCookie (c : CookieRec) : Bool :=
  let domain := pyOr c.domain ""
  if !(X_HOSTS.any (fun host => strContains domain host)) then false
  else
    let name := pyOr c.name ""
    let value := pyOr c.value ""
    !(name = "" || value = "")

/-- The spec's characterization of the filter: domain contains a target
hostname and both name and value are non-empty. -/
def cookieRetainedSpec (c : CookieRec) : Prop :=
  (∃ host ∈ X_HOSTS, strContains (pyOr c.domain "") host = true) ∧
  pyOr c.name "" ≠ "" ∧ pyOr c.value "" ≠ ""

/-- Cookie selection of `_with_page`: the fresh browser source is loaded first
(a raised `CliError` is remembered and leaves the browser list empty), then the
saved store; the browser list is used outright when non-empty, otherwise the
saved list; when a session is required and no cookies were found the remembered
load error, or a generic message, is raised. -/
def with_page_cookies (requireSession allowBrowser allowSaved : Bool)
    (browserSource : Except String (List CookieRec))
    (saved : List CookieRec) : Except String (List CookieRec) :=
  let browserLoad := if allowBrowser then browserSource else Except.ok []
  let browser_cookies := match browserLoad with
    | Except.ok cs => cs
    | Except.error _ => []
  let loadError : Option String := match browserLoad with
    | Except.ok _ => none
    | Except.error e => some e
  let saved_cookies := if allowSaved then saved else []
  let cookies := if browser_cookies.isEmpty then saved_cookies else browser_cookies
  if requireSession && cookies.isEmpty then
    match loadError with
    | some e => Except.error e
    | none => Except.error "No local session cookies found. Run user_login_v3 --refresh first."
  else
    Except.ok cookies

/-- The merge key of `_merge_cookie_sets`: `(domain, name, path)` with `path`
defaulting to `"/"`. -/
def cookieKey (c : CookieRec) : String × String × String :=
  (pyOr c.domain "", pyOr c.name "", pyOr c.path "/")

/-- One iteration of the `_merge_cookie_sets` loop: entries with empty domain
or name are skipped, an existing key is updated in place (Python dict update
keeps the key's original position), a new key is appended. -/
def mergeStep (acc : List CookieRec) (src : CookieRec) : List CookieRec :=
  if pyOr src.domain "" = "" ∨ pyOr src.name "" = "" then acc
  else if acc.any (fun c => decide (cookieKey c = cookieKey src)) then
    acc.map (fun c => if cookieKey c = cookieKey src then src else c)
  else acc ++ [src]

/-- `_merge_cookie_sets(primary, secondary)`: iterates `secondary + primary`
into a dict keyed by `cookieKey` and returns its values. -/
def merge_cookie_sets (primary secondary : List CookieRec) : List CookieRec :=
  (secondary ++ primary).foldl mergeStep []

/-- Value stored for key `k` in a merged cookie list. -/
def lookupCookie (k : String × String × String) (l : List CookieRec) : Option CookieRec :=
  l.find? (fun c => decide (cookieKey c = k))

/-- A record enters the merge dict only when both domain and name are
non-empty. -/
def keyedValid (c : CookieRec) : Bool :=
  !(decide (pyOr c.domain "" = "") || decide (pyOr c.name "" = ""))

/-- The last record of the list that survives the merge's validity test and
carries key `k` (later-listed entries are authoritative). -/
def lastWithKey (k : String × String × String) : List CookieRec → Option CookieRec
  | [] => none
  | c :: rest =>
    match lastWithKey k rest with
    | some r => some r
    | none => if keyedValid c && decide (cookieKey c = k) then some c else none

/-- A record whose key has an empty domain: the merge drops it. -/
def droppedCookie : CookieRec :=
  { domain := some "", name := some "sid", value := some "v", path := some "/" }

/-- A harvested row: a Python dict with an optional `key` field and arbitrary
further payload fields. -/
structure HarvestRow where
  key : Option String := none
  payload : List (String × String) := []
deriving Repr, DecidableEq

/-- `str(row.get("key") or "")`: the dedup key, empty when missing or falsy. -/
def rowKey (r : HarvestRow) : String :=
  pyOr r.key ""

/-- One row insertion of `_collect_with_scroll`: keyless rows are skipped and
an already-present key leaves the mapping unchanged (first occurrence wins);
the mapping is a Python dict in insertion order, modelled as a list. -/
def insertRow (seen : List HarvestRow) (row : HarvestRow) : List HarvestRow :=
  if rowKey row = "" then seen
  else if seen.any (fun r => decide (rowKey r = rowKey row)) then seen
  else seen ++ [row]

/-- Inserting one extraction's rows in order. -/
def insertRows (seen : List HarvestRow) (rows : List HarvestRow) : List HarvestRow :=
  rows.foldl insertRow seen

/-- The scroll loop of `_collect_with_scroll`: the page view is modelled by the
number of scroll-and-wait steps performed so far, so the extractor is a
function of the cycle index; the loop returns the number of extraction cycles
run and the final mapping. -/
def collectGo (extractor : Nat → List HarvestRow) (limit : Nat) :
    Nat → Nat → List HarvestRow → Nat × List HarvestRow
  | cycle, 0, seen => (cycle, seen)
  | cycle, fuel + 1, seen =>
    let seen2 := insertRows seen (extractor cycle)
    if limit ≤ seen2.length then (cycle + 1, seen2)
    else collectGo extractor limit (cycle + 1) fuel seen2

/-- `_collect_with_scroll(page, extractor, limit, max_scrolls)`: every call
site clamps `limit` to at least 1 (see the limit-clamp definitions below), so
`limit` is a natural number and the final Python slice `[:limit]` is `take`. -/
def collect_with_scroll (extractor : Nat → List HarvestRow) (limit maxScrolls : Nat) :
    List HarvestRow :=
  ((collectGo extractor limit 0 maxScrolls []).2).take limit

/-- Number of extraction cycles the loop performs. -/
def collectCyclesUsed (extractor : Nat → List HarvestRow) (limit maxScrolls : Nat) : Nat :=
  (collectGo extractor limit 0 maxScrolls []).1

/-- The mapping accumulated after the first `n` cycles, with no termination
check: cycle `c` contributes `extractor c`. -/
def seenAfter (extractor : Nat → List HarvestRow) : Nat → List HarvestRow
  | 0 => []
  | n + 1 => insertRows (seenAfter extractor n) (extractor n)

/-- First-seen-order key list of a row sequence, skipping empty keys and keys
already in `acc`. -/
def newKeys (acc : List String) : List HarvestRow → List String
  | [] => []
  | r :: rs =>
    if rowKey r = "" ∨ rowKey r ∈ acc then newKeys acc rs
    else rowKey r :: newKeys (rowKey r :: acc) rs

/-- An extractor producing three new uniquely-keyed rows on each of its first
three cycles. -/
def threePerCycle : Nat → List HarvestRow
  | 0 => [⟨some "t1", []⟩, ⟨some "t2", []⟩, ⟨some "t3", []⟩]
  | 1 => [⟨some "t4", []⟩, ⟨some "t5", []⟩, ⟨some "t6", []⟩]
  | 2 => [⟨some "t7", []⟩, ⟨some "t8", []⟩, ⟨some "t9", []⟩]
  | _ + 3 => []

/-- A static view of five distinctly-keyed rows. -/
def staticFiveRows : List HarvestRow :=
  [⟨some "u1", []⟩, ⟨some "u2", []⟩, ⟨some "u3", []⟩, ⟨some "u4", []⟩, ⟨some "u5", []⟩]

/-- An extractor whose single row keeps its key but changes payload every
cycle. -/
def shiftingPayload (c : Nat) : List HarvestRow :=
  [⟨some "p", [("cycle", toString c)]⟩]

/-- Python `s.startswith(p)`, via the character-list embedding. -/
def strStarts (s p : String) : Bool :=
  listPrefixOf p.data s.data

/-- The metadata record written by `_run_stream_start`. -/
structure StreamMeta where
  pid : Int
  started_at : Int
  input : String
  target : String
  command : List String
deriving Repr, DecidableEq

/-- Persisted supervisor state, the PID marker file and the metadata file:
`none` is an absent file, `some none` a file whose content fails to parse as
an int (resp. as a JSON dict), `some (some v)` a file parsing to `v`. -/
structure SupState where
  pidFile : Option (Option Int) := none
  metaFile : Option (Option StreamMeta) := none
deriving Repr, DecidableEq

/-- External environment of one supervisor command: ffmpeg availability,
process liveness as probed by `os.kill(pid, 0)`, the `subprocess.Popen`
outcome, the `proc.poll()` result after the two-second grace period, the
clock, and the log path. -/
structure SupEnv where
  ffmpegAvailable : Bool
  alive : Int → Bool
  launch : Except String Int
  earlyExit : Option Int
  now : Int
  logPath : String

/-- Result dict of `_run_stream_status`; `meta := none` is the empty-object
degradation for a missing or corrupt metadata file. -/
structure StatusResult where
  running : Bool
  pid : Option Int := none
  meta : Option StreamMeta := none
  err : Option String := none
deriving Repr, DecidableEq

/-- `_run_stream_status`: an absent marker is "not running"; an unparseable
marker is "not running" with an error note; otherwise liveness is probed and
the metadata is read best-effort. -/
def run_stream_status (st : SupState) (env : SupEnv) : StatusResult :=
  match st.pidFile with
  | none => { running := false }
  | some none => { running := false, err := some "Invalid pid file" }
  | some (some pid) =>
    let meta := match st.metaFile with
      | some (some m) => some m
      | _ => none
    { running := env.alive pid, pid := some pid, meta := meta }

/-- Arguments of the stream-start command; a missing `stream_key` is the empty
string. -/
structure StreamArgs where
  rtmp_url : String
  stream_key : String
  input : String
  loop : Bool
  preset : String
  video_bitrate : String
  audio_bitrate : String
  buffer_size : String
deriving Repr, DecidableEq

/-- `_stream_target_url`. -/
def stream_target_url (rtmp_url stream_key : String) : Except String String :=
  if rtmp_url.trim = "" then Except.error "--rtmp-url is required."
  else if stream_key.trim = "" then Except.ok rtmp_url.trim
  else if rtmp_url.trim.endsWith "/" then Except.ok (rtmp_url.trim ++ stream_key.trim)
  else Except.ok (rtmp_url.trim ++ "/" ++ stream_key.trim)

/-- The ffmpeg invocation assembled by `_run_stream_start`. -/
def buildStreamCmd (args : StreamArgs) (inputValue target : String) : List String :=
  ["ffmpeg", "-hide_banner", "-loglevel", "warning"] ++
  (if args.loop then ["-stream_loop", "-1"] else []) ++
  ["-re", "-i", inputValue, "-c:v", "libx264", "-preset", args.preset,
    "-b:v", args.video_bitrate, "-maxrate", args.video_bitrate,
    "-bufsize", args.buffer_size, "-pix_fmt", "yuv420p", "-g", "60",
    "-c:a", "aac", "-b:a", args.audio_bitrate, "-ar", "44100", "-f", "flv", target]

/-- Python `str(...)` of the optional pid carried by a status dict. -/
def optPidRepr : Option Int → String
  | none => "None"
  | some p => toString p

/-- Result of a successful stream start. -/
structure StartResult where
  started : Bool
  pid : Int
  target : String
deriving Repr, DecidableEq

/-- `_run_stream_start`: raises (returning the state unchanged, since every
raise happens before the two writes) on missing ffmpeg, a running stream, bad
arguments, launch failure, or an immediately-exited subprocess; on success
writes the PID marker and the metadata record together. -/
def run_stream_start (st : SupState) (env : SupEnv) (args : StreamArgs) :
    SupState × Except String StartResult :=
  if !env.ffmpegAvailable then
    (st, Except.error "ffmpeg is required for live streaming. Install ffmpeg first.")
  else if (run_stream_status st env).running then
    (st, Except.error ("Stream already running (pid=" ++
      optPidRepr (run_stream_status st env).pid ++ ")."))
  else
    match stream_target_url args.rtmp_url args.stream_key with
    | Except.error e => (st, Except.error e)
    | Except.ok target =>
      if args.input.trim = "" then
        (st, Except.error "--input is required (video file/device/stream source).")
      else
        match env.launch with
        | Except.error err => (st, Except.error ("Failed to launch ffmpeg: " ++ err))
        | Except.ok pid =>
          match env.earlyExit with
          | some code =>
            (st, Except.error ("ffmpeg exited immediately with code " ++ toString code ++
              ". See " ++ env.logPath))
          | none =>
            ({ pidFile := some (some pid),
                metaFile := some (some
                  { pid := pid, started_at := env.now, input := args.input.trim,
                    target := target,
                    command := buildStreamCmd args args.input.trim target }) },
              Except.ok { started := true, pid := pid, target := target })

/-- Result dict of `_run_stream_stop`. -/
structure StopResult where
  stopped : Bool
  message : Option String := none
  pid : Option Int := none
deriving Repr, DecidableEq

/-- `_run_stream_stop`: a missing marker reports "not running" (no error); a
marker that does not parse as an int raises ValueError before touching the
files; a dead recorded process self-heals by removing both artifacts; a live
one is signalled (TERM, bounded poll, then KILL — external effects) and both
artifacts are removed. -/
def run_stream_stop (st : SupState) (env : SupEnv) :
    SupState × Except String StopResult :=
  match st.pidFile with
  | none => (st, Except.ok { stopped := false, message := some "No running stream." })
  | some none => (st, Except.error "ValueError: invalid pid file text")
  | some (some pid) =>
    if env.alive pid then
      ({ pidFile := none, metaFile := none },
        Except.ok { stopped := true, pid := some pid })
    else
      ({ pidFile := none, metaFile := none },
        Except.ok { stopped := false, message := some "No running stream process found." })

/-- The PID marker exists and records a live process. -/
def markerLive (st : SupState) (env : SupEnv) : Bool :=
  match st.pidFile with
  | some (some p) => env.alive p
  | _ => false

/-- Limit clamp of `_run_user_last_tweets`. -/
def user_last_tweets_limit (limit : Int) : Int := max 1 (min limit 200)

/-- Limit clamp of `_run_search_user`. -/
def search_user_limit (limit : Int) : Int := max 1 (min limit 200)

/-- Limit clamp of `_run_advanced_search`. -/
def advanced_search_limit (limit : Int) : Int := max 1 (min limit 200)

/-- Limit clamp of `_run_notifications_list`. -/
def notifications_list_limit (limit : Int) : Int := max 1 (min limit 300)

/-- Limit clamp of `_run_user_connections`. -/
def user_connections_limit (limit : Int) : Int := max 1 (min limit 500)

/-- The clamp the spec describes: `max(1, min(limit, cap))`. -/
def clampSpec (limit cap : Int) : Int := max 1 (min limit cap)

end XLocal

namespace XLocal

/-- C5: on every code path the cookie filter keeps a record iff its domain
contains a target hostname and name and value are non-empty. -/
theorem C5_cookie_filter_characterization (c : CookieRec) :
    (keepSavedCookie c = true ↔ cookieRetainedSpec c) ∧
    (keepSaveCookie c = true ↔ cookieRetainedSpec c) ∧
    (keepBrowserCookie c = true ↔ cookieRetainedSpec c) := by
  have hspec : cookieRetainedSpec c ↔
      (X_HOSTS.any (fun host => strContains (pyOr c.domain "") host) = true ∧
        pyOr c.name "" ≠ "" ∧ pyOr c.value "" ≠ "") := by
    unfold cookieRetainedSpec
    rw [List.any_eq_true]
  rcases Bool.eq_false_or_eq_true
      (X_HOSTS.any (fun host => strContains (pyOr c.domain "") host)) with hd | hd <;>
    by_cases hn : pyOr c.name "" = "" <;>
    by_cases hv : pyOr c.value "" = "" <;>
    simp [keepSavedCookie, keepSaveCookie, keepBrowserCookie, hspec, hd, hn, hv]

/-- C5 witness at a concrete record: a valid x.com cookie is retained. -/
theorem C5_cookie_filter_characterization_witness :
    keepSavedCookie { domain := some ".x.com", name := some "auth_token", value := some "t" } = true :=
  ((C5_cookie_filter_characterization _).1).mpr
    ⟨⟨"x.com", by decide, by decide⟩, by decide, by decide⟩

/-- C1: the fresh browser cookie source, when it yields a non-empty list, backs
the session outright; the persisted set backs the session exactly when the
fresh source fails or yields nothing; the resulting session cookies are always
exactly one of the two candidate sets, never a merge. -/
theorem C1_session_source_priority (requireSession : Bool)
    (browserSource : Except String (List CookieRec)) (saved : List CookieRec) :
    (∀ cs, browserSource = Except.ok cs → cs ≠ [] →
      with_page_cookies requireSession true true browserSource saved = Except.ok cs) ∧
    ((browserSource = Except.ok [] ∨ (∃ e, browserSource = Except.error e)) → saved ≠ [] →
      with_page_cookies requireSession true true browserSource saved = Except.ok saved) ∧
    (∀ cs, with_page_cookies requireSession true true browserSource saved = Except.ok cs →
      (browserSource = Except.ok cs ∧ cs ≠ []) ∨ cs = saved) := by
  refine ⟨?_, ?_, ?_⟩
  · intro cs hbs hne
    subst hbs
    unfold with_page_cookies
    have hce : cs.isEmpty = false := List.isEmpty_eq_false.mpr hne
    simp [hce]
  · rintro (hbs | ⟨e, hbs⟩) hsne <;> subst hbs <;>
      unfold with_page_cookies <;>
      simp [List.isEmpty_eq_false.mpr hsne]
  · intro cs hres
    cases hbs : browserSource with
    | error e =>
      subst hbs
      unfold with_page_cookies at hres
      simp at hres
      split at hres
      · exact absurd hres (by simp)
      · right
        exact (Except.ok.injEq _ _ ▸ hres).symm
    | ok bs =>
      subst hbs
      cases bs with
      | nil =>
        unfold with_page_cookies at hres
        simp at hres
        split at hres
        · exact absurd hres (by simp)
        · right
          exact (Except.ok.injEq _ _ ▸ hres).symm
      | cons b rest =>
        unfold with_page_cookies at hres
        simp at hres
        left
        exact ⟨by rw [hres], hres ▸ (by simp)⟩

/-- C1 witness: with a failing fresh source and the persisted set `[c]`, the
session is backed by exactly the persisted set. -/
theorem C1_session_source_priority_witness :
    with_page_cookies true true true (Except.error "boom")
      [{ domain := some ".x.com", name := some "a", value := some "v" }] =
    Except.ok [{ domain := some ".x.com", name := some "a", value := some "v" }] :=
  (C1_session_source_priority true (Except.error "boom") _).2.1
    (Or.inr ⟨"boom", rfl⟩) (by decide)

theorem find?_map_replace (acc : List CookieRec) (src : CookieRec)
    (k : String × String × String) (hk : cookieKey src ≠ k) :
    List.find? (fun c => decide (cookieKey c = k))
      (acc.map (fun c => if cookieKey c = cookieKey src then src else c)) =
    List.find? (fun c => decide (cookieKey c = k)) acc := by
  induction acc with
  | nil => rfl
  | cons a rest ih =>
    by_cases ha : cookieKey a = cookieKey src
    · have hak : ¬cookieKey a = k := by rw [ha]; exact hk
      simp only [List.map_cons, if_pos ha]
      rw [List.find?_cons_of_neg _ (by simpa using hk),
        List.find?_cons_of_neg _ (by simpa using hak)]
      exact ih
    · by_cases hak : cookieKey a = k
      · simp only [List.map_cons, if_neg ha]
        rw [List.find?_cons_of_pos _ (by simpa using hak),
          List.find?_cons_of_pos _ (by simpa using hak)]
      · simp only [List.map_cons, if_neg ha]
        rw [List.find?_cons_of_neg _ (by simpa using hak),
          List.find?_cons_of_neg _ (by simpa using hak)]
        exact ih

theorem find?_map_replace_hit (acc : List CookieRec) (src : CookieRec)
    (hany : acc.any (fun c => decide (cookieKey c = cookieKey src)) = true) :
    List.find? (fun c => decide (cookieKey c = cookieKey src))
      (acc.map (fun c => if cookieKey c = cookieKey src then src else c)) = some src := by
  induction acc with
  | nil => simp at hany
  | cons a rest ih =>
    by_cases ha : cookieKey a = cookieKey src
    · simp only [List.map_cons, if_pos ha]
      exact List.find?_cons_of_pos _ (by simp)
    · simp only [List.map_cons, if_neg ha]
      rw [List.find?_cons_of_neg _ (by simpa using ha)]
      refine ih ?_
      simpa [ha] using hany

theorem lookup_mergeStep (acc : List CookieRec) (src : CookieRec)
    (k : String × String × String) :
    lookupCookie k (mergeStep acc src) =
      if keyedValid src && decide (cookieKey src = k) then some src
      else lookupCookie k acc := by
  by_cases hd : pyOr src.domain "" = ""
  · simp [mergeStep, keyedValid, lookupCookie, hd]
  by_cases hn : pyOr src.name "" = ""
  · simp [mergeStep, keyedValid, lookupCookie, hd, hn]
  by_cases hk : cookieKey src = k
  · subst hk
    by_cases hany : acc.any (fun c => decide (cookieKey c = cookieKey src)) = true
    · have hhit := find?_map_replace_hit acc src hany
      simp [mergeStep, keyedValid, lookupCookie, hd, hn, hany, hhit]
    · rw [Bool.not_eq_true] at hany
      have hnone : List.find? (fun c => decide (cookieKey c = cookieKey src)) acc = none := by
        rw [List.find?_eq_none]
        intro x hx
        rw [List.any_eq_false] at hany
        simpa using hany x hx
      simp [mergeStep, keyedValid, lookupCookie, hd, hn, hany, List.find?_append,
        hnone, List.find?]
  · by_cases hany : acc.any (fun c => decide (cookieKey c = cookieKey src)) = true
    · have hrep := find?_map_replace acc src k hk
      simp [mergeStep, keyedValid, lookupCookie, hd, hn, hany, hk, hrep]
    · rw [Bool.not_eq_true] at hany
      simp [mergeStep, keyedValid, lookupCookie, hd, hn, hany, hk, List.find?_append,
        List.find?]

theorem lookup_foldl_merge (l : List CookieRec) :
    ∀ (acc : List CookieRec) (k : String × String × String),
      lookupCookie k (l.foldl mergeStep acc) =
        match lastWithKey k l with
        | some c => some c
        | none => lookupCookie k acc := by
  induction l with
  | nil => intro acc k; rfl
  | cons src rest ih =>
    intro acc k
    simp only [List.foldl_cons, lastWithKey]
    rw [ih]
    cases h : lastWithKey k rest with
    | some r => rfl
    | none =>
      simp only []
      rw [lookup_mergeStep]
      by_cases hv : (keyedValid src && decide (cookieKey src = k)) = true
      · simp [hv]
      · simp only [Bool.not_eq_true] at hv
        simp [hv]

theorem lastWithKey_append (k : String × String × String) (l₁ l₂ : List CookieRec) :
    lastWithKey k (l₁ ++ l₂) =
      match lastWithKey k l₂ with
      | some c => some c
      | none => lastWithKey k l₁ := by
  induction l₁ with
  | nil =>
    simp only [List.nil_append, lastWithKey]
    cases lastWithKey k l₂ <;> rfl
  | cons a rest ih =>
    simp only [List.cons_append, lastWithKey, List.append_eq, ih]
    cases lastWithKey k l₂ <;> cases lastWithKey k rest <;> rfl

/-- C9 (amended): the merge is keyed by `(domain, name, path)` and
later-listed entries win, so with the fresh set appended after the saved set
every key maps to the fresh set's last record for that key when the fresh set
has one, and otherwise to the saved set's last record; records whose domain or
name is empty are dropped rather than preserved. -/
theorem C9_merge_later_entries_win (fresh saved : List CookieRec)
    (k : String × String × String) :
    lookupCookie k (merge_cookie_sets fresh saved) =
      match lastWithKey k fresh with
      | some c => some c
      | none => lastWithKey k saved := by
  unfold merge_cookie_sets
  rw [lookup_foldl_merge, lastWithKey_append]
  cases lastWithKey k fresh <;> cases lastWithKey k saved <;> simp [lookupCookie]

/-- C9 counterexample: a record whose domain is empty has its key present only
in the fresh set, yet the merged result drops it entirely, so "keys present in
only one set are preserved" fails as stated. -/
theorem C9_dropped_key_not_preserved :
    lookupCookie (cookieKey droppedCookie) [droppedCookie] = some droppedCookie ∧
    merge_cookie_sets [droppedCookie] [] = [] := by
  constructor <;> rfl

theorem collectGo_spec (extractor : Nat → List HarvestRow) (limit : Nat) :
    ∀ (fuel cycle : Nat),
      cycle ≤ (collectGo extractor limit cycle fuel (seenAfter extractor cycle)).1 ∧
      (collectGo extractor limit cycle fuel (seenAfter extractor cycle)).1 ≤ cycle + fuel ∧
      (collectGo extractor limit cycle fuel (seenAfter extractor cycle)).2 =
        seenAfter extractor (collectGo extractor limit cycle fuel (seenAfter extractor cycle)).1 ∧
      (∀ c, cycle < c →
        c < (collectGo extractor limit cycle fuel (seenAfter extractor cycle)).1 →
        (seenAfter extractor c).length < limit) ∧
      ((collectGo extractor limit cycle fuel (seenAfter extractor cycle)).1 < cycle + fuel →
        limit ≤ (seenAfter extractor
          (collectGo extractor limit cycle fuel (seenAfter extractor cycle)).1).length) := by
  intro fuel
  induction fuel with
  | zero =>
    intro cycle
    refine ⟨Nat.le_refl _, by simp [collectGo], by simp [collectGo], ?_, ?_⟩
    · intro c h1 h2
      simp only [collectGo] at h2
      omega
    · intro h
      simp only [collectGo] at h
      omega
  | succ fuel ih =>
    intro cycle
    have hseen2 : insertRows (seenAfter extractor cycle) (extractor cycle) =
        seenAfter extractor (cycle + 1) := rfl
    by_cases hstop : limit ≤ (seenAfter extractor (cycle + 1)).length
    · have hres : collectGo extractor limit cycle (fuel + 1) (seenAfter extractor cycle) =
          (cycle + 1, seenAfter extractor (cycle + 1)) := by
        simp [collectGo, hseen2, hstop]
      rw [hres]
      exact ⟨by omega, by omega, rfl, fun c h1 h2 => by omega, fun _ => hstop⟩
    · have hres : collectGo extractor limit cycle (fuel + 1) (seenAfter extractor cycle) =
          collectGo extractor limit (cycle + 1) fuel (seenAfter extractor (cycle + 1)) := by
        simp [collectGo, hseen2, hstop]
      rw [hres]
      obtain ⟨h1, h2, h3, h4, h5⟩ := ih (cycle + 1)
      refine ⟨by omega, by omega, h3, ?_, fun h => h5 (by omega)⟩
      intro c hc1 hc2
      by_cases hc : c = cycle + 1
      · subst hc
        omega
      · exact h4 c (by omega) hc2

/-- C2: the collect loop checks the unique-row count after each extraction and
stops at the first cycle whose accumulated unique rows reach the limit,
otherwise runs all `max_scrolls` cycles; the result is the accumulated unique
rows truncated to the limit, and an extractor yielding 3 new unique rows per
cycle with limit 7 stops after 3 cycles with exactly 7 rows. -/
theorem C2_limit_enforcement (extractor : Nat → List HarvestRow)
    (limit maxScrolls : Nat) :
    (∃ n, n ≤ maxScrolls ∧
      collectCyclesUsed extractor limit maxScrolls = n ∧
      collect_with_scroll extractor limit maxScrolls = (seenAfter extractor n).take limit ∧
      (∀ c, 0 < c → c < n → (seenAfter extractor c).length < limit) ∧
      (n < maxScrolls → limit ≤ (seenAfter extractor n).length)) ∧
    (collect_with_scroll extractor limit maxScrolls).length ≤ limit ∧
    collect_with_scroll threePerCycle 7 14 =
      [⟨some "t1", []⟩, ⟨some "t2", []⟩, ⟨some "t3", []⟩, ⟨some "t4", []⟩,
        ⟨some "t5", []⟩, ⟨some "t6", []⟩, ⟨some "t7", []⟩] ∧
    collectCyclesUsed threePerCycle 7 14 = 3 := by
  obtain ⟨h1, h2, h3, h4, h5⟩ := collectGo_spec extractor limit maxScrolls 0
  simp only [show seenAfter extractor 0 = [] from rfl, Nat.zero_add] at h1 h2 h3 h4 h5
  refine ⟨⟨(collectGo extractor limit 0 maxScrolls []).1, h2, rfl, ?_, ?_, ?_⟩, ?_, ?_, ?_⟩
  · unfold collect_with_scroll
    rw [h3]
  · intro c hc1 hc2
    exact h4 c hc1 hc2
  · intro h
    exact h5 h
  · exact List.length_take_le _ _
  · decide
  · decide

/-- C2 witness at the concrete 3-rows-per-cycle extractor. -/
theorem C2_limit_enforcement_witness :
    collect_with_scroll threePerCycle 7 14 =
      [⟨some "t1", []⟩, ⟨some "t2", []⟩, ⟨some "t3", []⟩, ⟨some "t4", []⟩,
        ⟨some "t5", []⟩, ⟨some "t6", []⟩, ⟨some "t7", []⟩] :=
  (C2_limit_enforcement threePerCycle 7 14).2.2.1

theorem any_key_iff (seen : List HarvestRow) (k : String) :
    seen.any (fun x => decide (rowKey x = k)) = true ↔ k ∈ seen.map rowKey := by
  simp only [List.any_eq_true, decide_eq_true_eq, List.mem_map]

theorem newKeys_congr (rows : List HarvestRow) :
    ∀ acc1 acc2 : List String, (∀ x, x ∈ acc1 ↔ x ∈ acc2) →
      newKeys acc1 rows = newKeys acc2 rows := by
  induction rows with
  | nil => intro acc1 acc2 _; rfl
  | cons r rs ih =>
    intro acc1 acc2 h
    simp only [newKeys]
    by_cases h0 : rowKey r = "" ∨ rowKey r ∈ acc1
    · rw [if_pos h0, if_pos ?_]
      · exact ih acc1 acc2 h
      · rcases h0 with h0 | h0
        · exact Or.inl h0
        · exact Or.inr ((h _).mp h0)
    · rw [if_neg h0, if_neg ?_]
      · rw [ih (rowKey r :: acc1) (rowKey r :: acc2) (fun x => by simp [h x])]
      · intro hc
        apply h0
        rcases hc with hc | hc
        · exact Or.inl hc
        · exact Or.inr ((h _).mpr hc)

theorem insertRows_keys (rows : List HarvestRow) :
    ∀ seen : List HarvestRow,
      (insertRows seen rows).map rowKey =
        seen.map rowKey ++ newKeys (seen.map rowKey) rows := by
  induction rows with
  | nil => intro seen; simp [insertRows, newKeys]
  | cons r rs ih =>
    intro seen
    have hfold : insertRows seen (r :: rs) = insertRows (insertRow seen r) rs := rfl
    rw [hfold, ih]
    by_cases h0 : rowKey r = ""
    · rw [show insertRow seen r = seen from by simp [insertRow, h0]]
      simp [newKeys, h0]
    · by_cases hmem : rowKey r ∈ seen.map rowKey
      · rw [show insertRow seen r = seen from by
          simp [insertRow, h0, (any_key_iff seen (rowKey r)).mpr hmem]]
        simp [newKeys, h0, hmem]

      · rw [show insertRow seen r = seen ++ [r] from by
          simp only [insertRow, if_neg h0]
          rw [if_neg (fun hc => hmem ((any_key_iff seen (rowKey r)).mp hc))]]
        simp only [newKeys, h0, hmem, or_self, if_false, false_or, if_neg hmem]
        rw [List.map_append]
        simp only [List.map_cons, List.map_nil]
        rw [newKeys_congr rs (seen.map rowKey ++ [rowKey r]) (rowKey r :: seen.map rowKey)
          (fun x => by simp [or_comm])]
        simp [List.append_assoc]

theorem empty_not_mem_newKeys (rows : List HarvestRow) :
    ∀ acc : List String, "" ∉ newKeys acc rows := by
  induction rows with
  | nil => intro acc; simp [newKeys]
  | cons r rs ih =>
    intro acc
    simp only [newKeys]
    split
    · exact ih acc
    · rename_i h
      intro hc
      rcases List.mem_cons.mp hc with hc | hc
      · exact (not_or.mp h).1 hc.symm
      · exact ih _ hc

/-- C3: the harvester mapping is first-occurrence-wins (a row with an
already-seen key leaves the mapping unchanged), rows with empty or missing key
are discarded, and the mapping's keys are the row keys in first-seen order. -/
theorem C3_dedup_first_wins (seen : List HarvestRow) (row : HarvestRow)
    (rows : List HarvestRow) :
    (rowKey row = "" → insertRow seen row = seen) ∧
    ((∃ r ∈ seen, rowKey r = rowKey row) → insertRow seen row = seen) ∧
    (insertRows [] rows).map rowKey = newKeys [] rows ∧
    (∀ r ∈ insertRows [] rows, rowKey r ≠ "") := by
  refine ⟨fun h0 => by simp [insertRow, h0], ?_, ?_, ?_⟩
  · rintro ⟨r, hr, hk⟩
    by_cases h0 : rowKey row = ""
    · simp [insertRow, h0]
    · have hany : seen.any (fun x => decide (rowKey x = rowKey row)) = true :=
        List.any_eq_true.mpr ⟨r, hr, by simp [hk]⟩
      simp [insertRow, h0, hany]
  · simpa using insertRows_keys rows []
  · intro r hr hk
    have : rowKey r ∈ (insertRows [] rows).map rowKey := List.mem_map.mpr ⟨r, hr, rfl⟩
    rw [insertRows_keys rows []] at this
    simp only [List.map_nil, List.nil_append] at this
    rw [hk] at this
    exact empty_not_mem_newKeys rows [] this

/-- C3 witness: a duplicate key does not overwrite, and a keyless row is
dropped. -/
theorem C3_dedup_first_wins_witness :
    insertRow [⟨some "k", [("v", "old")]⟩] ⟨some "k", [("v", "new")]⟩ =
      [⟨some "k", [("v", "old")]⟩] :=
  (C3_dedup_first_wins [⟨some "k", [("v", "old")]⟩] ⟨some "k", [("v", "new")]⟩ []).2.1
    ⟨⟨some "k", [("v", "old")]⟩, by decide, by decide⟩

theorem keys_insertRows_mono (rows seen : List HarvestRow) (k : String) :
    k ∈ seen.map rowKey → k ∈ (insertRows seen rows).map rowKey := by
  rw [insertRows_keys rows seen]
  intro h
  exact List.mem_append.mpr (Or.inl h)

theorem key_mem_insertRows (rows : List HarvestRow) :
    ∀ (seen : List HarvestRow) (r : HarvestRow), r ∈ rows → rowKey r ≠ "" →
      rowKey r ∈ (insertRows seen rows).map rowKey := by
  induction rows with
  | nil =>
    intro seen r h
    simp at h
  | cons a rs ih =>
    intro seen r hr hk
    have hfold : insertRows seen (a :: rs) = insertRows (insertRow seen a) rs := rfl
    rcases List.mem_cons.mp hr with rfl | hr
    · have h1 : rowKey r ∈ (insertRow seen r).map rowKey := by
        unfold insertRow
        rw [if_neg hk]
        split
        · rename_i hany
          exact (any_key_iff seen (rowKey r)).mp hany
        · simp
      rw [hfold]
      exact keys_insertRows_mono rs (insertRow seen r) _ h1
    · rw [hfold]
      exact ih (insertRow seen a) r hr hk

theorem insertRows_stable (rows : List HarvestRow) :
    ∀ seen, (∀ r ∈ rows, rowKey r = "" ∨ rowKey r ∈ seen.map rowKey) →
      insertRows seen rows = seen := by
  induction rows with
  | nil => intro seen _; rfl
  | cons a rs ih =>
    intro seen h
    have ha : insertRow seen a = seen := by
      rcases h a (List.mem_cons_self a rs) with h0 | hmem
      · simp [insertRow, h0]
      · by_cases h0 : rowKey a = ""
        · simp [insertRow, h0]
        · simp [insertRow, h0, (any_key_iff seen (rowKey a)).mpr hmem]
    have hfold : insertRows seen (a :: rs) = insertRows (insertRow seen a) rs := rfl
    rw [hfold, ha]
    exact ih seen (fun r hr => h r (List.mem_cons_of_mem a hr))

theorem insertRows_idem (rows seen : List HarvestRow) :
    insertRows (insertRows seen rows) rows = insertRows seen rows := by
  apply insertRows_stable
  intro r hr
  by_cases hk : rowKey r = ""
  · exact Or.inl hk
  · exact Or.inr (key_mem_insertRows rows seen r hr hk)

theorem collectGo_static (rows : List HarvestRow) (limit : Nat) (fuel : Nat) :
    ∀ (cycle : Nat) (seen : List HarvestRow), insertRows seen rows = seen →
      (collectGo (fun _ => rows) limit cycle fuel seen).2 = seen := by
  induction fuel with
  | zero => intro cycle seen _; rfl
  | succ fuel ih =>
    intro cycle seen hstable
    simp only [collectGo, hstable]
    split
    · rfl
    · exact ih (cycle + 1) seen hstable

/-- C4: against a static view the collect loop is deterministic and
idempotent: with at least one cycle the result is always the dedup of the
static rows truncated to the limit, independent of the cycle budget; the
static 5-row example returns exactly those 5 rows in first-seen order, and
when payloads differ across cycles the first occurrence is kept. Each call
builds its mapping from the empty list. -/
theorem C4_static_idempotence (rows : List HarvestRow) (limit maxScrolls : Nat) :
    (1 ≤ maxScrolls →
      collect_with_scroll (fun _ => rows) limit maxScrolls =
        (insertRows [] rows).take limit) ∧
    collect_with_scroll (fun _ => staticFiveRows) 10 3 = staticFiveRows ∧
    collect_with_scroll shiftingPayload 10 3 = [⟨some "p", [("cycle", "0")]⟩] := by
  refine ⟨?_, by decide, by decide⟩
  intro hmc
  obtain ⟨m, rfl⟩ : ∃ m, maxScrolls = m + 1 := ⟨maxScrolls - 1, by omega⟩
  unfold collect_with_scroll
  simp only [collectGo]
  have hidem := insertRows_idem rows []
  by_cases hstop : limit ≤ (insertRows [] rows).length
  · simp [hstop]
  · simp only [hstop, if_false]
    rw [collectGo_static rows limit m 1 (insertRows [] rows) hidem]

/-- C4 witness: the general static-extractor equation at the 5-row view. -/
theorem C4_static_idempotence_witness :
    collect_with_scroll (fun _ => staticFiveRows) 10 3 =
      (insertRows [] staticFiveRows).take 10 :=
  (C4_static_idempotence staticFiveRows 10 3).1 (by decide)

theorem listPrefixOf_self_append (xs ys : List Char) :
    listPrefixOf xs (xs ++ ys) = true := by
  induction xs with
  | nil => rfl
  | cons a as ih => simp [listPrefixOf, ih]

theorem listContainsSub_append (p suf : List Char) :
    ∀ pre, listContainsSub p (pre ++ (p ++ suf)) = true := by
  intro pre
  induction pre with
  | nil =>
    cases p with
    | nil => cases suf <;> rfl
    | cons a as =>
      show (listPrefixOf (a :: as) (a :: (as ++ suf)) ||
        listContainsSub (a :: as) (as ++ suf)) = true
      have : listPrefixOf (a :: as) (a :: (as ++ suf)) = true := by
        simp [listPrefixOf, listPrefixOf_self_append]
      rw [this, Bool.true_or]
  | cons c cs ih =>
    show (listPrefixOf p (c :: (cs ++ (p ++ suf))) ||
      listContainsSub p (cs ++ (p ++ suf))) = true
    rw [ih, Bool.or_true]

theorem strStarts_already (x : String) :
    strStarts ("Stream already running (pid=" ++ x ++ ").") "Stream already running" = true :=
  rfl

theorem strStarts_failed_launch (err : String) :
    strStarts ("Failed to launch ffmpeg: " ++ err) "Stream already running" = false :=
  rfl

theorem strStarts_early_exit (x : String) :
    strStarts ("ffmpeg exited immediately with code " ++ x) "Stream already running" = false :=
  rfl

theorem stream_target_url_ok (r k : String) (hb : ¬r.trim = "") :
    ∃ t, stream_target_url r k = Except.ok t := by
  unfold stream_target_url
  rw [if_neg hb]
  by_cases hk : k.trim = ""
  · exact ⟨_, by rw [if_pos hk]⟩
  · by_cases he : r.trim.endsWith "/" = true
    · exact ⟨_, by rw [if_neg hk, if_pos he]⟩
    · exact ⟨_, by rw [if_neg hk, if_neg he]⟩

theorem start_cases (st : SupState) (env : SupEnv) (args : StreamArgs) :
    (∃ msg, run_stream_start st env args = (st, Except.error msg)) ∨
    (∃ pid m, run_stream_start st env args =
      ({ pidFile := some (some pid), metaFile := some (some m) },
        Except.ok { started := true, pid := pid, target := m.target }) ∧ m.pid = pid) := by
  unfold run_stream_start
  split
  · exact Or.inl ⟨_, rfl⟩
  split
  · exact Or.inl ⟨_, rfl⟩
  split
  · exact Or.inl ⟨_, rfl⟩
  split
  · exact Or.inl ⟨_, rfl⟩
  split
  · exact Or.inl ⟨_, rfl⟩
  split
  · exact Or.inl ⟨_, rfl⟩
  · exact Or.inr ⟨_, _, rfl, rfl⟩

theorem start_not_running (st : SupState) (env : SupEnv) (args : StreamArgs)
    (hff : env.ffmpegAvailable = true)
    (hnr : (run_stream_status st env).running = false) :
    ∀ msg, (run_stream_start st env args).2 = Except.error msg →
      strStarts msg "Stream already running" = false := by
  intro msg hmsg
  unfold run_stream_start at hmsg
  rw [hff] at hmsg
  simp only [Bool.not_true, Bool.false_eq_true, if_false, hnr] at hmsg
  by_cases hb : args.rtmp_url.trim = ""
  · rw [show stream_target_url args.rtmp_url args.stream_key =
      Except.error "--rtmp-url is required." from by
        unfold stream_target_url
        rw [if_pos hb]] at hmsg
    simp only at hmsg
    cases hmsg
    rfl
  · obtain ⟨t, ht⟩ := stream_target_url_ok args.rtmp_url args.stream_key hb
    rw [ht] at hmsg
    simp only at hmsg
    by_cases hi : args.input.trim = ""
    · rw [if_pos hi] at hmsg
      cases hmsg
      rfl
    · rw [if_neg hi] at hmsg
      cases hl : env.launch with
      | error err =>
        rw [hl] at hmsg
        simp only at hmsg
        cases hmsg
        exact strStarts_failed_launch err
      | ok pid =>
        rw [hl] at hmsg
        simp only at hmsg
        cases he : env.earlyExit with
        | some code =>
          rw [he] at hmsg
          simp only at hmsg
          cases hmsg
          exact strStarts_early_exit _
        | none =>
          rw [he] at hmsg
          simp at hmsg

/-- C6: with ffmpeg available, stream start fails with the already-running
error exactly when the PID marker records a live process; that error names the
existing pid and leaves the persisted state unchanged; otherwise start either
succeeds and writes the PID marker and metadata together, or fails without
writing either. -/
theorem C6_start_already_running_iff (st : SupState) (env : SupEnv)
    (args : StreamArgs) (hff : env.ffmpegAvailable = true) :
    (markerLive st env = true ↔
      ∃ msg, (run_stream_start st env args).2 = Except.error msg ∧
        strStarts msg "Stream already running" = true) ∧
    (∀ p, st.pidFile = some (some p) → env.alive p = true →
      run_stream_start st env args =
        (st, Except.error ("Stream already running (pid=" ++ toString p ++ ").")) ∧
      strContains ("Stream already running (pid=" ++ toString p ++ ").") (toString p) = true) ∧
    (∀ res, (run_stream_start st env args).2 = Except.ok res →
      (run_stream_start st env args).1.pidFile = some (some res.pid) ∧
      ∃ m, (run_stream_start st env args).1.metaFile = some (some m) ∧ m.pid = res.pid) ∧
    (∀ msg, (run_stream_start st env args).2 = Except.error msg →
      (run_stream_start st env args).1 = st) := by
  have hrunning : ∀ p, st.pidFile = some (some p) → env.alive p = true →
      run_stream_start st env args =
        (st, Except.error ("Stream already running (pid=" ++ toString p ++ ").")) := by
    intro p hp halive
    simp [run_stream_start, run_stream_status, hp, halive, hff, optPidRepr]
  refine ⟨⟨?_, ?_⟩, ?_, ?_, ?_⟩
  · intro hlive
    unfold markerLive at hlive
    split at hlive
    · rename_i p hp
      rw [(hrunning p hp hlive)]
      exact ⟨_, rfl, strStarts_already _⟩
    · exact absurd hlive (by simp)
  · rintro ⟨msg, hmsg, hstarts⟩
    by_cases hlive : markerLive st env = true
    · exact hlive
    · exfalso
      have hnr : (run_stream_status st env).running = false := by
        unfold markerLive at hlive
        unfold run_stream_status
        split
        · rfl
        · rfl
        · rename_i p hp
          rw [hp] at hlive
          simpa using hlive
      rw [start_not_running st env args hff hnr msg hmsg] at hstarts
      exact Bool.false_ne_true hstarts
  · intro p hp halive
    refine ⟨hrunning p hp halive, ?_⟩
    unfold strContains
    rw [show ("Stream already running (pid=" ++ toString p ++ ").").data =
      ("Stream already running (pid=").data ++ ((toString p).data ++ (").").data) from by
        simp [String.data_append]]
    exact listContainsSub_append _ _ _
  · intro res hres
    rcases start_cases st env args with ⟨msg, hcase⟩ | ⟨pid, m, hcase, hm⟩
    · rw [hcase] at hres
      cases hres
    · rw [hcase] at hres ⊢
      cases hres
      exact ⟨rfl, m, rfl, hm⟩
  · intro msg hmsg
    rcases start_cases st env args with ⟨m2, hcase⟩ | ⟨pid, m, hcase, hm⟩
    · rw [hcase]
    · rw [hcase] at hmsg
      cases hmsg

/-- C6 witness: a live recorded pid makes start fail with the already-running
error naming that pid. -/
theorem C6_start_already_running_iff_witness :
    run_stream_start
      { pidFile := some (some 7), metaFile := none }
      { ffmpegAvailable := true, alive := fun _ => true,
        launch := Except.ok 9, earlyExit := none, now := 0, logPath := "log" }
      { rtmp_url := "rtmp://x", stream_key := "", input := "in.mp4", loop := false,
        preset := "veryfast", video_bitrate := "4000k", audio_bitrate := "128k",
        buffer_size := "8000k" } =
      ({ pidFile := some (some 7), metaFile := none },
        Except.error ("Stream already running (pid=" ++ toString (7 : Int) ++ ").")) :=
  ((C6_start_already_running_iff _ _ _ rfl).2.1 7 rfl rfl).1

/-- C7: stop treats an absent PID marker as "not running" without raising;
with a marker for a dead process it removes both artifacts and reports not
running; and status on such a stale marker reports not running without an
error. -/
theorem C7_stop_self_healing (st : SupState) (env : SupEnv) :
    (st.pidFile = none →
      run_stream_stop st env =
        (st, Except.ok { stopped := false, message := some "No running stream." })) ∧
    (∀ p, st.pidFile = some (some p) → env.alive p = false →
      run_stream_stop st env =
        ({ pidFile := none, metaFile := none },
          Except.ok { stopped := false, message := some "No running stream process found." })) ∧
    (∀ p, st.pidFile = some (some p) → env.alive p = false →
      (run_stream_status st env).running = false ∧
      (run_stream_status st env).err = none) := by
  refine ⟨?_, ?_, ?_⟩
  · intro h
    simp [run_stream_stop, h]
  · intro p hp hdead
    simp [run_stream_stop, hp, hdead]
  · intro p hp hdead
    simp [run_stream_status, hp, hdead]

/-- C7 witness: stopping with no marker present reports "not running" without
an error. -/
theorem C7_stop_self_healing_witness :
    run_stream_stop { pidFile := none, metaFile := none }
        { ffmpegAvailable := true, alive := fun _ => false, launch := Except.ok 1,
          earlyExit := none, now := 0, logPath := "log" } =
      ({ pidFile := none, metaFile := none },
        Except.ok { stopped := false, message := some "No running stream." }) :=
  (C7_stop_self_healing _ _).1 rfl

/-- C8: a successful start writes the PID marker and the metadata record
together; every stop path leaves the state untouched or removes both
artifacts; and status tolerates a marker without (or with corrupt) metadata,
degrading the metadata to the empty object instead of failing. -/
theorem C8_pair_invariant (st : SupState) (env : SupEnv) (args : StreamArgs) :
    (∀ res, (run_stream_start st env args).2 = Except.ok res →
      ∃ m, (run_stream_start st env args).1 =
        { pidFile := some (some res.pid), metaFile := some (some m) }) ∧
    ((run_stream_stop st env).1 = st ∨
      (run_stream_stop st env).1 = { pidFile := none, metaFile := none }) ∧
    (∀ p, st.pidFile = some (some p) →
      (st.metaFile = none ∨ st.metaFile = some none) →
      run_stream_status st env =
        { running := env.alive p, pid := some p, meta := none, err := none }) := by
  refine ⟨?_, ?_, ?_⟩
  · intro res hres
    rcases start_cases st env args with ⟨msg, hcase⟩ | ⟨pid, m, hcase, hm⟩
    · rw [hcase] at hres
      cases hres
    · rw [hcase] at hres ⊢
      cases hres
      exact ⟨m, rfl⟩
  · cases hp : st.pidFile with
    | none =>
      left
      simp [run_stream_stop, hp]
    | some po =>
      cases po with
      | none =>
        left
        simp [run_stream_stop, hp]
      | some p =>
        right
        by_cases ha : env.alive p = true <;> simp [run_stream_stop, hp, ha]
  · intro p hp hm
    rcases hm with hm | hm <;> simp [run_stream_status, hp, hm]

/-- C8 witness: a marker with corrupt metadata degrades to the empty object. -/
theorem C8_pair_invariant_witness :
    run_stream_status { pidFile := some (some 5), metaFile := some none }
        { ffmpegAvailable := true, alive := fun _ => false, launch := Except.ok 1,
          earlyExit := none, now := 0, logPath := "log" } =
      { running := false, pid := some 5, meta := none, err := none } :=
  (C8_pair_invariant { pidFile := some (some 5), metaFile := some none }
      { ffmpegAvailable := true, alive := fun _ => false, launch := Except.ok 1,
        earlyExit := none, now := 0, logPath := "log" }
      { rtmp_url := "", stream_key := "", input := "", loop := false, preset := "",
        video_bitrate := "", audio_bitrate := "", buffer_size := "" }).2.2 5 rfl (Or.inr rfl)

/-- C10: every paginated read endpoint clamps its integer `--limit` argument
to `max(1, min(limit, cap))` before collecting — cap 200 for user tweets and
both search endpoints, 300 for notifications, 500 for follower/following
listings — so the harvester always receives a limit between 1 and the cap. -/
theorem C10_limit_clamping (l : Int) :
    (user_last_tweets_limit l = clampSpec l 200 ∧
      1 ≤ user_last_tweets_limit l ∧ user_last_tweets_limit l ≤ 200) ∧
    (search_user_limit l = clampSpec l 200 ∧
      1 ≤ search_user_limit l ∧ search_user_limit l ≤ 200) ∧
    (advanced_search_limit l = clampSpec l 200 ∧
      1 ≤ advanced_search_limit l ∧ advanced_search_limit l ≤ 200) ∧
    (notifications_list_limit l = clampSpec l 300 ∧
      1 ≤ notifications_list_limit l ∧ notifications_list_limit l ≤ 300) ∧
    (user_connections_limit l = clampSpec l 500 ∧
      1 ≤ user_connections_limit l ∧ user_connections_limit l ≤ 500) := by
  refine ⟨⟨rfl, ?_, ?_⟩, ⟨rfl, ?_, ?_⟩, ⟨rfl, ?_, ?_⟩, ⟨rfl, ?_, ?_⟩, ⟨rfl, ?_, ?_⟩⟩ <;>
    first
      | exact le_max_left 1 _
      | exact max_le (by norm_num) (min_le_right _ _)

end XLocal
